import Mathlib

/-
Verification of the core safety components of the openai-agents-tools
repository: the approval gate in context.py, output bounding in errors.py,
path resolution and the file tools in tools/file, the shell tool in
tools/shell/shell.py, and the ripgrep provisioner in tools/file/grep.py.

Python strings are modelled as lists of unicode characters (`PyStr`), so
that `len` corresponds to `List.length` and slicing to `List.take`/`drop`.
The filesystem is modelled as an explicit association of canonical paths
to contents, and side effects of the tool handlers are recorded as an
explicit event trace.
-/

namespace OAT

/-- A Python `str`, modelled as a list of unicode characters. -/
abbrev PyStr := List Char

/-- Characters of a Lean string literal, used to write `PyStr` constants. -/
def str (s : String) : PyStr := s.data

/- ### errors.py: message formatting -/

/-- `format_error` from errors.py. -/
def format_error (message : PyStr) : PyStr := str ("Error: ") ++ message

/-- `format_rejection` from errors.py: the fixed rejection signal. -/
def format_rejection : PyStr :=
  str ("Error: The tool call is rejected by the user. Please follow the new instructions from the user.")

/-- `format_success` from errors.py. -/
def format_success (output message : PyStr) : PyStr :=
  if output = [] ∧ message = [] then str ("Operation completed successfully.")
  else if message = [] then output
  else if output = [] then message
  else output ++ str ("\n\n[") ++ message ++ str ("]")

/- ### errors.py: output truncation -/

/-- `DEFAULT_MAX_CHARS` from errors.py. -/
def DEFAULT_MAX_CHARS : Nat := 50000

/-- `DEFAULT_MAX_LINE_LENGTH` from errors.py. -/
def DEFAULT_MAX_LINE_LENGTH : Nat := 2000

/-- The characters Python's `str.splitlines` treats as line boundaries. -/
def isLineBreakChar (c : Char) : Bool :=
  c = '\n' || c = '\r' || c = '\x0B' || c = '\x0C' ||
  c = '\x1C' || c = '\x1D' || c = '\x1E' || c = '\x85' ||
  c = ' ' || c = ' '

/-- Worker for Python `str.splitlines(keepends=True)`: `cur` is the current
line accumulated so far. `"\r\n"` counts as a single terminator. -/
def splitlinesKE (cur : PyStr) (s : PyStr) : List PyStr :=
  match s with
  | [] => if cur = [] then [] else [cur]
  | '\r' :: '\n' :: rest => (cur ++ ['\r', '\n']) :: splitlinesKE [] rest
  | c :: rest =>
    if isLineBreakChar c then (cur ++ [c]) :: splitlinesKE [] rest
    else splitlinesKE (cur ++ [c]) rest

/-- Python `output.splitlines(keepends=True)`. -/
def splitlines (s : PyStr) : List PyStr := splitlinesKE [] s

/-- Python slicing `l[:k]`, where a negative bound counts from the end. -/
def pyTake (l : PyStr) (k : Int) : PyStr :=
  if k < 0 then l.take (l.length - k.natAbs) else l.take k.natAbs

/-- Python `line.endswith("\n")` on a character list. -/
def endsWithLF (l : PyStr) : Bool := l.getLast? = some '\n'

/-- The per-line stage of `truncate_output` (errors.py lines 109-113):
if a per-line limit is set and the line exceeds it, keep the first
`max_line_length - 3` characters plus `"..."`, then append `"\n"` when the
result does not end in `"\n"` and the whole output contains a `"\n"`. -/
def lineTruncStep (hasLF : Bool) (mll : Option Nat) (line : PyStr) : PyStr × Bool :=
  match mll with
  | none => (line, false)
  | some m =>
    if m < line.length then
      let l1 := pyTake line ((m : Int) - 3) ++ str ("...")
      let l2 := if !(endsWithLF l1) && hasLF then l1 ++ ['\n'] else l1
      (l2, true)
    else (line, false)

/-- The main loop of `truncate_output` (errors.py lines 102-125), carrying
the cumulative emitted length `total` and the `truncated` flag. -/
def truncLoop (mc : Nat) (hasLF : Bool) (mll : Option Nat) :
    List PyStr → Nat → Bool → List PyStr × Bool
  | [], _, trunc => ([], trunc)
  | line :: rest, total, trunc =>
    if mc ≤ total then ([], true)
    else
      let s1 := lineTruncStep hasLF mll line
      let trunc1 := trunc || s1.2
      if mc < total + s1.1.length then
        let remaining := mc - total
        if 3 < remaining then
          let line2 := s1.1.take (remaining - 3) ++ str ("...")
          let r := truncLoop mc hasLF mll rest (total + line2.length) true
          (line2 :: r.1, r.2)
        else ([], trunc1)
      else
        let r := truncLoop mc hasLF mll rest (total + s1.1.length) trunc1
        (s1.1 :: r.1, r.2)

/-- The trailing sentinel marker appended by `truncate_output`. -/
def TRUNC_MARKER : PyStr := str ("[...truncated]")

/-- `truncate_output` from errors.py. -/
def truncate_output (output : PyStr) (max_chars : Nat) (max_line_length : Option Nat) :
    PyStr × Bool :=
  if output = [] then (output, false)
  else
    let lines := splitlines output
    let hasLF := 0 < output.count '\n'
    let r := truncLoop max_chars hasLF max_line_length lines 0 false
    let result := r.1.flatten
    if r.2 then
      let result2 := if !(endsWithLF result) then result ++ ['\n'] else result
      (result2 ++ TRUNC_MARKER, true)
    else (result, false)

/- ### Paths: pathlib operations used by `_resolve_path` -/

/-- A `pathlib.Path` value: an absolute-or-relative flag plus components.
`".."` components are kept (they are only eliminated by `resolve`). -/
structure PyPath where
  absolute : Bool
  components : List PyStr
deriving DecidableEq

/-- Split a raw path string at `'/'` characters; `cur` is the current
component accumulated in reverse. -/
def splitOnSlashAux (cur : PyStr) : PyStr → List PyStr
  | [] => [cur.reverse]
  | c :: rest =>
    if c = '/' then cur.reverse :: splitOnSlashAux [] rest
    else splitOnSlashAux (c :: cur) rest

/-- `pathlib.Path(path_str)`: leading `'/'` means absolute; empty and `"."`
components are dropped, `".."` is kept. -/
def parsePath (s : PyStr) : PyPath :=
  { absolute := s.head? = some '/',
    components := (splitOnSlashAux [] s).filter (fun c => c != [] && c != str (".")) }

/-- `Path.expanduser()`: a leading component beginning with `"~"` is
replaced by a home directory. `home` is the OS environment: it maps the
text after the `"~"` to that user's absolute home components, the empty
suffix being the current user — so both `"~"` and `"~user"` forms are
expanded, as `pathlib` does. (A failing user lookup raises in Python; the
model's environment is total.) -/
def expanduser (home : PyStr → List PyStr) (p : PyPath) : PyPath :=
  match p.absolute, p.components with
  | false, c :: rest =>
    match c with
    | '~' :: user => { absolute := true, components := home user ++ rest }
    | _ => p
  | _, _ => p

/-- `work_dir / p` for a relative `p`: concatenation of components. -/
def joinPath (base p : PyPath) : PyPath :=
  if p.absolute then p
  else { absolute := base.absolute, components := base.components ++ p.components }

/-- Boolean prefix test on lists. -/
def isPrefixList {α : Type} [BEq α] : List α → List α → Bool
  | [], _ => true
  | _ :: _, [] => false
  | a :: as, b :: bs => a == b && isPrefixList as bs

/-- Whether `p.relative_to(base)` succeeds: `base`'s components are a
leading run of `p`'s components (and the anchors agree). -/
def isRelTo (p base : PyPath) : Bool :=
  p.absolute == base.absolute && isPrefixList base.components p.components

/-- Lexical `".."`/`"."` elimination over components, with a reversed
accumulator; `".."` above the root is dropped (as `Path.resolve` does). -/
def normComps (acc : List PyStr) : List PyStr → List PyStr
  | [] => acc.reverse
  | c :: rest =>
    if c = str ("..") then normComps (acc.drop 1) rest
    else if c = str (".") then normComps acc rest
    else normComps (c :: acc) rest

/-- `Path.resolve()` on a filesystem without symlinks: purely lexical
normalization. Used as one instance of the `resolveFn` parameter. -/
def lexResolve (p : PyPath) : PyPath :=
  { absolute := p.absolute, components := normComps [] p.components }

/-- Render a `PyPath` the way `str(Path)` does (used only in approval
descriptions). -/
def joinSep (sep : PyStr) : List PyStr → PyStr
  | [] => []
  | [x] => x
  | x :: xs => x ++ sep ++ joinSep sep xs

/-- String form of a path, `'/'`-separated. -/
def renderPath (p : PyPath) : PyStr :=
  (if p.absolute then str ("/") else []) ++ joinSep (str ("/")) p.components

/-- The `PathNotAbsolute` error message produced by `_resolve_path`
(write.py lines 68-72; the middle phrase varies per tool). -/
def notAbsoluteMsg (path_str verbPhrase : PyStr) : PyStr :=
  str ("`") ++ path_str ++ str ("` is not an absolute path. You must provide an absolute path to ") ++
    verbPhrase ++ str (" outside the working directory.")

/-- `_resolve_path` from write.py lines 43-76 (identical in replace.py;
read.py omits the third component). `resolveFn` stands for the OS-level
`Path.resolve()` canonicalization, `home` for the home directory, and
`verbPhrase` for the tool-specific phrase in the error message. Returns
`(resolved_path, error_message?, is_outside_workdir)`. -/
def resolve_path (resolveFn : PyPath → PyPath) (home : PyStr → List PyStr) (verbPhrase : PyStr)
    (path_str : PyStr) (work_dir : PyPath) : PyPath × Option PyStr × Bool :=
  let p0 := expanduser home (parsePath path_str)
  let p1 := if p0.absolute then p0 else joinPath work_dir p0
  let p := resolveFn p1
  if isRelTo p work_dir then (p, none, false)
  else if p0.absolute then (p, none, true)
  else (p, some (notAbsoluteMsg path_str verbPhrase), true)

/-- The canonical path `_resolve_path` computes for an input string. -/
def canonicalOf (resolveFn : PyPath → PyPath) (home : PyStr → List PyStr)
    (path_str : PyStr) (work_dir : PyPath) : PyPath :=
  let p0 := expanduser home (parsePath path_str)
  resolveFn (if p0.absolute then p0 else joinPath work_dir p0)

/- ### context.py: KimiToolContext -/

/-- `KimiToolContext` from context.py, restricted to the fields the core
tools read. The async approval callback is modelled as a function. -/
structure KimiToolContext where
  work_dir : PyPath
  yolo_mode : Bool
  auto_approved_actions : List PyStr
  approval_callback : Option (PyStr → PyStr → PyStr → Bool)

/-- `KimiToolContext.request_approval` from context.py lines 98-128. -/
def request_approval (ctx : KimiToolContext) (tool_name action description : PyStr) : Bool :=
  if ctx.yolo_mode then true
  else if action ∈ ctx.auto_approved_actions then true
  else
    match ctx.approval_callback with
    | some cb => cb tool_name action description
    | none => false

/-- `KimiToolContext.approve_action` from context.py lines 130-132. -/
def approve_action (ctx : KimiToolContext) (action : PyStr) : KimiToolContext :=
  { ctx with auto_approved_actions := action :: ctx.auto_approved_actions }

/- ### A filesystem model and the side-effect event trace -/

/-- A filesystem: existing directories and files, keyed by canonical
absolute components. -/
structure FS where
  dirs : List (List PyStr)
  files : List (List PyStr × PyStr)
deriving DecidableEq

/-- Content of the file at `p`, if present. -/
def FS.readFile? (fs : FS) (p : List PyStr) : Option PyStr :=
  (fs.files.find? (fun e => e.1 == p)).map (fun e => e.2)

/-- `p.is_file()`. -/
def FS.existsFile (fs : FS) (p : List PyStr) : Bool := (fs.readFile? p).isSome

/-- Whether `p` is an existing directory. -/
def FS.existsDir (fs : FS) (p : List PyStr) : Bool := fs.dirs.contains p

/-- `p.exists()`. -/
def FS.existsAny (fs : FS) (p : List PyStr) : Bool := fs.existsFile p || fs.existsDir p

/-- Overwrite (or create) the file at `p`. -/
def FS.writeFile (fs : FS) (p : List PyStr) (content : PyStr) : FS :=
  { fs with files := (p, content) :: fs.files.filter (fun e => e.1 != p) }

/-- `open(p, "a")` followed by a write: append, creating if missing. -/
def FS.appendFile (fs : FS) (p : List PyStr) (content : PyStr) : FS :=
  fs.writeFile p (((fs.readFile? p).getD []) ++ content)

/-- `mkdir(parents=True, exist_ok=True)` for a single directory entry. -/
def FS.mkdirp (fs : FS) (p : List PyStr) : FS :=
  if fs.existsDir p then fs else { fs with dirs := p :: fs.dirs }

/-- The observable operations a tool call performs, in program order. -/
inductive Event
  | approvalDecision (approved : Bool)
  | fsWrite (path : List PyStr) (content : PyStr)
  | procSpawn (args : List PyStr)
  | procKill
  | procWait
deriving DecidableEq

/-- The side-effecting events: file writes and process spawns. -/
def isSideEffect : Event → Bool
  | .fsWrite _ _ => true
  | .procSpawn _ => true
  | _ => false

/-- Scan a trace left to right: every side effect must be preceded by an
`approvalDecision true` event. -/
def effectsAfterAux (approved : Bool) : List Event → Bool
  | [] => true
  | e :: rest =>
    match e with
    | .approvalDecision b => effectsAfterAux (approved || b) rest
    | _ => (!isSideEffect e || approved) && effectsAfterAux approved rest

/-- No side-effecting operation occurs before an approved decision. -/
def effectsOnlyAfterApproval (tr : List Event) : Bool := effectsAfterAux false tr

/-- Number of spawned child processes not yet reaped at the end of a trace. -/
def procsAlive (tr : List Event) : Nat :=
  tr.foldl
    (fun n e =>
      match e with
      | Event.procSpawn _ => n + 1
      | Event.procWait => n - 1
      | _ => n) 0

/- ### Decimal rendering of numbers (for messages) -/

/-- Digit character for `n < 10`. -/
def digitChar (n : Nat) : Char := Char.ofNat (48 + n)

/-- Fuelled decimal rendering. -/
def natToStrAux : Nat → Nat → PyStr
  | 0, _ => []
  | fuel + 1, n => if n < 10 then [digitChar n] else natToStrAux fuel (n / 10) ++ [digitChar (n % 10)]

/-- Decimal rendering of a natural number. -/
def natToStr (n : Nat) : PyStr := natToStrAux (n + 1) n

/-- Decimal rendering of an integer. -/
def intToStr (i : Int) : PyStr :=
  if i < 0 then '-' :: natToStr i.natAbs else natToStr i.natAbs

/- ### Python str.replace / str.count (for str_replace_file) -/

/-- All non-overlapping left-to-right replacements, nonempty needle. -/
def replaceAllNE (old new : PyStr) (s : PyStr) : PyStr :=
  match s with
  | [] => []
  | c :: rest =>
    if h : old ≠ [] ∧ isPrefixList old (c :: rest) then
      new ++ replaceAllNE old new ((c :: rest).drop old.length)
    else c :: replaceAllNE old new rest
termination_by s.length
decreasing_by
  · have h1 : 0 < old.length := List.length_pos.mpr h.1
    simp only [List.length_drop, List.length_cons]
    omega
  · simp only [List.length_cons]
    omega

/-- Replacement of the first occurrence only, nonempty needle. -/
def replaceOnce (old new : PyStr) (s : PyStr) : PyStr :=
  match s with
  | [] => []
  | c :: rest =>
    if isPrefixList old (c :: rest) then new ++ (c :: rest).drop old.length
    else c :: replaceOnce old new rest

/-- For an empty needle, Python inserts the replacement after every
character (and once at the front). -/
def interAfter (new : PyStr) (s : PyStr) : PyStr :=
  s.foldr (fun c acc => c :: (new ++ acc)) []

/-- Python `s.replace(old, new)` (`all = true`) and
`s.replace(old, new, 1)` (`all = false`). -/
def pyReplace (s old new : PyStr) (all : Bool) : PyStr :=
  if old = [] then
    if all then new ++ interAfter new s else new ++ s
  else if all then replaceAllNE old new s
  else replaceOnce old new s

/-- Count of non-overlapping occurrences, nonempty needle. -/
def countOccNE (old : PyStr) (s : PyStr) : Nat :=
  match s with
  | [] => 0
  | c :: rest =>
    if h : old ≠ [] ∧ isPrefixList old (c :: rest) then
      1 + countOccNE old ((c :: rest).drop old.length)
    else countOccNE old rest
termination_by s.length
decreasing_by
  · have h1 : 0 < old.length := List.length_pos.mpr h.1
    simp only [List.length_drop, List.length_cons]
    omega
  · simp only [List.length_cons]
    omega

/-- Python `s.count(old)` (an empty needle counts `len(s) + 1`). -/
def pyCount (s old : PyStr) : Nat :=
  if old = [] then s.length + 1 else countOccNE old s

/- ### tools/file/write.py: write_file -/

/-- The two write modes of `write_file`. -/
inductive WriteMode
  | overwrite
  | append
deriving DecidableEq

/-- `WriteFileParams`. -/
structure WriteFileParams where
  path : PyStr
  content : PyStr
  mode : WriteMode

/-- Render a write mode for the approval description. -/
def modeStr : WriteMode → PyStr
  | .overwrite => str ("overwrite")
  | .append => str ("append")

/-- `write_file` from write.py lines 79-146. `resolveFn` models the OS
`Path.resolve()`, `home` the home directory. Returns the tool's string
result, the filesystem afterwards, and the event trace. -/
def write_file (ctx : KimiToolContext) (home : PyStr → List PyStr) (resolveFn : PyPath → PyPath)
    (params : WriteFileParams) (fs : FS) : PyStr × FS × List Event :=
  if params.path = [] then (format_error (str ("File path cannot be empty.")), fs, [])
  else
    match resolve_path resolveFn home (str ("write a file")) params.path ctx.work_dir with
    | (_, some err, _) => (format_error err, fs, [])
    | (p, none, is_outside) =>
      if !(fs.existsAny p.components.dropLast) then
        (format_error (str ("`") ++ params.path ++ str ("` parent directory does not exist.")), fs, [])
      else
        let action := if is_outside then str ("edit file outside working directory")
          else str ("edit file")
        let approved := request_approval ctx (str ("write_file")) action
          (str ("Write file `") ++ renderPath p ++ str ("` (mode: ") ++ modeStr params.mode ++ str (")"))
        if !approved then (format_rejection, fs, [Event.approvalDecision false])
        else
          let fs' :=
            match params.mode with
            | .overwrite => fs.writeFile p.components params.content
            | .append => fs.appendFile p.components params.content
          let size := ((fs'.readFile? p.components).getD []).length
          let actionWord :=
            match params.mode with
            | .overwrite => str ("overwritten")
            | .append => str ("appended to")
          (format_success []
             (str ("File successfully ") ++ actionWord ++ str (". Current size: ") ++
               natToStr size ++ str (" bytes.")),
           fs', [Event.approvalDecision true, Event.fsWrite p.components params.content])

/- ### tools/file/replace.py: str_replace_file -/

/-- A single `Edit` operation. -/
structure Edit where
  old : PyStr
  new : PyStr
  replace_all : Bool
deriving DecidableEq

/-- `_apply_edit` from replace.py lines 85-90. -/
def apply_edit (content : PyStr) (e : Edit) : PyStr :=
  pyReplace content e.old e.new e.replace_all

/-- Apply all edits in order (replace.py lines 133-134). -/
def applyEdits (content : PyStr) (edits : List Edit) : PyStr :=
  edits.foldl apply_edit content

/-- `StrReplaceFileParams`, after the `Edit | list[Edit]` normalization of
replace.py line 130. -/
structure StrReplaceParams where
  path : PyStr
  edits : List Edit

/-- The replacement count reported on success (replace.py lines 159-164). -/
def total_replacements (original : PyStr) (edits : List Edit) : Nat :=
  edits.foldl
    (fun acc e =>
      if e.replace_all then acc + pyCount original e.old
      else acc + (if 0 < pyCount original e.old then 1 else 0)) 0

/-- `str_replace_file` from replace.py lines 93-173. -/
def str_replace_file (ctx : KimiToolContext) (home : PyStr → List PyStr) (resolveFn : PyPath → PyPath)
    (params : StrReplaceParams) (fs : FS) : PyStr × FS × List Event :=
  if params.path = [] then (format_error (str ("File path cannot be empty.")), fs, [])
  else
    match resolve_path resolveFn home (str ("edit a file")) params.path ctx.work_dir with
    | (_, some err, _) => (format_error err, fs, [])
    | (p, none, is_outside) =>
      if !(fs.existsAny p.components) then
        (format_error (str ("`") ++ params.path ++ str ("` does not exist.")), fs, [])
      else if !(fs.existsFile p.components) then
        (format_error (str ("`") ++ params.path ++ str ("` is not a file.")), fs, [])
      else
        let content := (fs.readFile? p.components).getD []
        let newContent := applyEdits content params.edits
        if newContent = content then
          (format_error (str ("No replacements were made. The old string was not found in the file.")),
           fs, [])
        else
          let action := if is_outside then str ("edit file outside working directory")
            else str ("edit file")
          let approved := request_approval ctx (str ("str_replace_file")) action
            (str ("Edit file `") ++ renderPath p ++ str ("` with ") ++
              natToStr params.edits.length ++ str (" edit(s)"))
          if !approved then (format_rejection, fs, [Event.approvalDecision false])
          else
            (format_success []
               (str ("File successfully edited. Applied ") ++ natToStr params.edits.length ++
                 str (" edit(s) with ") ++ natToStr (total_replacements content params.edits) ++
                 str (" total replacement(s).")),
             fs.writeFile p.components newContent,
             [Event.approvalDecision true, Event.fsWrite p.components newContent])

/- ### tools/shell/shell.py: the shell handler -/

/-- The shells `ShellInfo` distinguishes. -/
inductive ShellName
  | bash
  | sh
  | powershell
  | cmd
deriving DecidableEq

/-- `ShellInfo` from shell.py lines 46-92. -/
structure ShellInfo where
  name : ShellName
  path : PyStr

/-- `ShellInfo.get_args`. -/
def ShellInfo.get_args (si : ShellInfo) (command : PyStr) : List PyStr :=
  match si.name with
  | .powershell => [si.path, str ("-Command"), command]
  | .cmd => [si.path, str ("/c"), command]
  | _ => [si.path, str ("-c"), command]

/-- `ShellParams` (timeout is a positive number of seconds). -/
structure ShellParams where
  command : PyStr
  timeout : Nat

/-- The outcome the operating system produces for one subprocess run:
either the timeout fires, or the process exits with merged output and an
exit code. -/
structure ProcOutcome where
  timedOut : Bool
  output : PyStr
  exitcode : Int

/-- `_shell_handler` from shell.py lines 185-260. The JSON-parse stage is
modelled by the `Except` argument (an `error e` stands for a parse or
validation failure with message `e`), and the subprocess by the oracle
`run`. Returns the string result and the event trace. -/
def shell_handler (ctx : KimiToolContext) (si : ShellInfo)
    (args : Except PyStr ShellParams) (run : List PyStr → ProcOutcome) : PyStr × List Event :=
  match args with
  | .error e => (format_error (str ("Invalid parameters: ") ++ e), [])
  | .ok params =>
    if params.command = [] then (format_error (str ("Command cannot be empty.")), [])
    else
      let approved := request_approval ctx (str ("shell")) (str ("run command"))
        (str ("Run command `") ++ params.command ++ str ("`"))
      if !approved then (format_rejection, [Event.approvalDecision false])
      else
        let shell_args := si.get_args params.command
        let outcome := run shell_args
        if outcome.timedOut then
          (format_error (str ("Command killed by timeout (") ++ natToStr params.timeout ++ str ("s)")),
           [Event.approvalDecision true, Event.procSpawn shell_args, Event.procKill, Event.procWait])
        else
          let tr := truncate_output outcome.output DEFAULT_MAX_CHARS (some DEFAULT_MAX_LINE_LENGTH)
          let result :=
            if outcome.exitcode = 0 then
              format_success tr.1
                (str ("Command executed successfully.") ++
                  (if tr.2 then str (" Output was truncated.") else []))
            else
              format_error
                (str ("Command failed with exit code: ") ++ intToStr outcome.exitcode ++ str (".") ++
                  (if tr.2 then str (" Output was truncated.") else []) ++
                  str ("\n\nOutput:\n") ++ tr.1)
          (result, [Event.approvalDecision true, Event.procSpawn shell_args, Event.procWait])

/-- Decidable equality for `Except` results. -/
instance exceptDecEq {ε α : Type} [DecidableEq ε] [DecidableEq α] : DecidableEq (Except ε α)
  | .ok a, .ok b => if h : a = b then .isTrue (by rw [h]) else .isFalse (by simp [h])
  | .ok _, .error _ => .isFalse (by simp)
  | .error _, .ok _ => .isFalse (by simp)
  | .error a, .error b => if h : a = b then .isTrue (by rw [h]) else .isFalse (by simp [h])

/- ### tools/file/grep.py: the ripgrep provisioner -/

/-- Environment of one download attempt: either the HTTP response is a
failure, or it yields an archive. Archive members carry a name and
`none` when `tar.extractfile` would return `None`; `failAfter = some k`
injects an I/O failure after `k` characters of the member have been
streamed to the destination. -/
inductive DlEnv
  | httpError
  | archive (members : List (PyStr × Option PyStr)) (failAfter : Option Nat)

/-- `Path(name).name`: the base filename of an archive member. -/
def baseName (nm : PyStr) : PyStr := (parsePath nm).components.getLastD []

/-- The install directory `~/.local/share/kimi/bin` (grep.py lines 142-144,
198). -/
def shareBinDir (home : List PyStr) : List PyStr :=
  home ++ [str (".local"), str ("share"), str ("kimi"), str ("bin")]

/-- The final install path `install_dir / bin_name`. -/
def destPath (home : List PyStr) (bin_name : PyStr) : List PyStr :=
  shareBinDir home ++ [bin_name]

/-- `_download_and_install_rg` from grep.py lines 184-238. `hasAiohttp`
models the import guard, `target` the result of `_detect_target()`. The
archive is downloaded to a scratch temporary directory (dropped on exit,
so not part of `FS`); the extracted member is streamed directly to the
final install path. The zip and tar branches perform the same
find-by-basename and stream-copy, so they are modelled once. The final
`chmod` only alters permission bits and is not tracked by `FS`. -/
def download_and_install_rg (hasAiohttp : Bool) (target : Option PyStr) (home : List PyStr)
    (bin_name : PyStr) (env : DlEnv) (fs : FS) : Except PyStr (List PyStr) × FS :=
  if !hasAiohttp then (.error (str ("aiohttp is required to download ripgrep")), fs)
  else
    match target with
    | none => (.error (str ("Unsupported platform for ripgrep download")), fs)
    | some _ =>
      let dest := destPath home bin_name
      let fs1 := fs.mkdirp (shareBinDir home)
      match env with
      | .httpError => (.error (str ("DownloadFailed: non-success response")), fs1)
      | .archive members failAfter =>
        match members.find? (fun m => baseName m.1 == bin_name) with
        | none => (.error (str ("Ripgrep binary not found in archive")), fs1)
        | some mem =>
          match mem.2 with
          | none => (.error (str ("Failed to extract ripgrep binary")), fs1)
          | some content =>
            match failAfter with
            | some k => (.error (str ("extraction interrupted")), fs1.writeFile dest (content.take k))
            | none => (.ok dest, fs1.writeFile dest content)

/- ### tools/file/grep.py: `_ensure_rg_path` as a two-task transition system -/

/-- Control points of one `_ensure_rg_path()` task (grep.py lines 241-254):
the fast existence check, waiting on `_RG_DOWNLOAD_LOCK`, the re-check
inside the lock, the download, and completion. -/
inductive PC
  | start
  | waitLock
  | inLock
  | downloading
  | done
deriving DecidableEq

/-- Shared state of two concurrent `ensure("rg")` calls (tasks `false` and
`true`): whether the binary is present, the lock owner, each task's
control point, and how many downloads have been performed. -/
structure EnsureState where
  present : Bool
  owner : Option Bool
  pc0 : PC
  pc1 : PC
  downloads : Nat
deriving DecidableEq

/-- Control point of task `i`. -/
def pcOf (s : EnsureState) (i : Bool) : PC := if i then s.pc1 else s.pc0

/-- Set the control point of task `i`. -/
def setPC (s : EnsureState) (i : Bool) (v : PC) : EnsureState :=
  if i then { s with pc1 := v } else { s with pc0 := v }

/-- One atomic step of task `i`, with suspension points at the lock and at
the download. A task at `waitLock` whose lock is held does nothing. -/
def ensureStep (s : EnsureState) (i : Bool) : EnsureState :=
  match pcOf s i with
  | .start =>
    if s.present then setPC s i .done else setPC s i .waitLock
  | .waitLock =>
    match s.owner with
    | none => { setPC s i .inLock with owner := some i }
    | some _ => s
  | .inLock =>
    if s.present then { setPC s i .done with owner := none }
    else setPC s i .downloading
  | .downloading =>
    { setPC s i .done with present := true, downloads := s.downloads + 1, owner := none }
  | .done => s

/-- Run a schedule: an arbitrary interleaving of the two tasks. -/
def ensureRun (s : EnsureState) (sched : List Bool) : EnsureState :=
  sched.foldl ensureStep s

/-- The cold-cache initial state: binary absent everywhere, lock free. -/
def ensureInit : EnsureState :=
  { present := false, owner := none, pc0 := .start, pc1 := .start, downloads := 0 }

/-- The inductive invariant of the double-checked-locking protocol: at
most one download ever happens, the binary is present exactly when it has
been downloaded, only the lock owner is in the critical section, a task
about to download has seen zero downloads, and a finished task implies the
download happened. -/
def EnsureInv (s : EnsureState) : Prop :=
  s.downloads ≤ 1 ∧
  (s.present = true ↔ s.downloads = 1) ∧
  (s.pc0 = PC.inLock ∨ s.pc0 = PC.downloading → s.owner = some false) ∧
  (s.pc1 = PC.inLock ∨ s.pc1 = PC.downloading → s.owner = some true) ∧
  (s.pc0 = PC.downloading → s.downloads = 0) ∧
  (s.pc1 = PC.downloading → s.downloads = 0) ∧
  (s.pc0 = PC.done → 1 ≤ s.downloads) ∧
  (s.pc1 = PC.done → 1 ≤ s.downloads)

/- ### The per-line behavior claimed by the spec (for comparison) -/

/-- The trailing line terminator of a `splitlines(keepends=True)` line:
`"\r\n"`, a single break character, or nothing. -/
def lineTerminator (line : PyStr) : PyStr :=
  match line.reverse with
  | '\n' :: '\r' :: _ => ['\r', '\n']
  | c :: _ => if isLineBreakChar c then [c] else []
  | [] => []

/-- Modelled from the spec claim wording for per-line truncation: the
line's first `max_line_chars - 3` characters, a 3-character ellipsis,
"with the line's original terminator kept". Stated only to compare with
the code's actual `lineTruncStep`. -/
def specClaimLineTrunc (mll : Nat) (line : PyStr) : PyStr :=
  line.take (mll - 3) ++ str ("...") ++ lineTerminator line

/- ## Theorems -/

/-- The loop of `truncate_output` never emits more than `max_chars`
characters beyond the budget already consumed. -/
theorem truncLoop_flatten_length (mc : Nat) (hasLF : Bool) (mll : Option Nat) :
    ∀ (lines : List PyStr) (total : Nat) (trunc : Bool), total ≤ mc →
      total + ((truncLoop mc hasLF mll lines total trunc).1.flatten).length ≤ mc := by
  intro lines
  induction lines with
  | nil => intro total trunc h; simpa [truncLoop] using h
  | cons line rest ih =>
    intro total trunc h
    simp only [truncLoop]
    split
    · simpa using h
    next h1 =>
      split
      next h2 =>
        split
        next h3 =>
          have hd : (str ("...")).length = 3 := rfl
          have hih := ih
            (total + ((lineTruncStep hasLF mll line).1.take (mc - total - 3) ++ str ("...")).length)
            true
            (by simp only [List.length_append, List.length_take, hd]; omega)
          simp only [List.flatten_cons, List.length_append, List.length_take, hd] at hih ⊢
          omega
        · simpa using h
      next h2 =>
        have hih := ih (total + (lineTruncStep hasLF mll line).1.length)
          (trunc || (lineTruncStep hasLF mll line).2) (by omega)
        simp only [List.flatten_cons, List.length_append] at hih ⊢
        omega

/-- C2: the approval decision evaluates its rules in strict order with
first match winning: `yolo_mode` approves everything; otherwise a
pre-approved action kind approves; otherwise a present callback decides;
otherwise the decision is `false` (fail closed). After
`approve_action("edit file")`, a decision for action `"edit file"` with
`yolo_mode = false` and no callback is approved. -/
theorem c2_approval_gate_order :
    (∀ (ctx : KimiToolContext) t a d, ctx.yolo_mode = true →
      request_approval ctx t a d = true) ∧
    (∀ (ctx : KimiToolContext) t a d, a ∈ ctx.auto_approved_actions →
      request_approval ctx t a d = true) ∧
    (∀ (ctx : KimiToolContext) t a d cb, ctx.yolo_mode = false →
      a ∉ ctx.auto_approved_actions → ctx.approval_callback = some cb →
      request_approval ctx t a d = cb t a d) ∧
    (∀ (ctx : KimiToolContext) t a d, ctx.yolo_mode = false →
      a ∉ ctx.auto_approved_actions → ctx.approval_callback = none →
      request_approval ctx t a d = false) ∧
    (∀ (ctx : KimiToolContext) t d, ctx.yolo_mode = false →
      ctx.approval_callback = none →
      request_approval (approve_action ctx (str ("edit file"))) t (str ("edit file")) d = true) := by
  refine ⟨?_, ?_, ?_, ?_, ?_⟩
  · intro ctx t a d hy; simp [request_approval, hy]
  · intro ctx t a d ha; simp [request_approval, ha]
  · intro ctx t a d cb hy ha hcb; simp [request_approval, hy, ha, hcb]
  · intro ctx t a d hy ha hcb; simp [request_approval, hy, ha, hcb]
  · intro ctx t d hy hcb; simp [request_approval, approve_action, hy]

/-- Witness for C2: a concrete context with `yolo_mode = false` and no
callback approves `"edit file"` after `approve_action("edit file")`. -/
theorem c2_approval_gate_order_witness :
    request_approval
      (approve_action ⟨⟨true, []⟩, false, [], none⟩ (str ("edit file")))
      (str ("str_replace_file")) (str ("edit file")) (str ("description")) = true :=
  c2_approval_gate_order.2.2.2.2 ⟨⟨true, []⟩, false, [], none⟩ _ _ rfl rfl

/-- Attaching the sentinel marker always yields a core followed by a line
terminator and the marker, with the core no longer than the input. -/
theorem marker_attach_decomp (result : PyStr) (mc : Nat) (h : result.length ≤ mc) :
    ∃ core : PyStr,
      ((if !(endsWithLF result) then result ++ ['\n'] else result) ++ TRUNC_MARKER) =
        core ++ '\n' :: TRUNC_MARKER ∧ core.length ≤ mc := by
  by_cases hend : endsWithLF result = true
  · have hmem : '\n' ∈ result.getLast? := by
      simpa [endsWithLF] using hend
    have hdec := List.dropLast_append_getLast? _ hmem
    refine ⟨result.dropLast, ?_, ?_⟩
    · rw [hend]
      simp only [Bool.not_true, Bool.false_eq_true, if_false]
      rw [← hdec]
      simp [List.append_assoc]
    · simp only [List.length_dropLast]; omega
  · refine ⟨result, ?_, h⟩
    rw [Bool.not_eq_true] at hend
    rw [hend]
    simp [List.append_assoc]

/-- C6: whenever `truncate_output` reports truncation, the emitted text is
some core of length at most `max_chars` followed by a line terminator and
the sentinel marker (the marker never fuses with cropped content); and on
a 20-character text with `max_chars = 10` and no per-line limit it returns
`truncated = true` with a 10-character core before the marker. -/
theorem c6_truncated_bound_and_marker :
    (∀ (output : PyStr) (mc : Nat) (mll : Option Nat),
      (truncate_output output mc mll).2 = true →
      ∃ core : PyStr, (truncate_output output mc mll).1 = core ++ '\n' :: TRUNC_MARKER ∧
        core.length ≤ mc) ∧
    truncate_output (str ("aaaaaaaaaaaaaaaaaaaa")) 10 none =
      (str ("aaaaaaa...") ++ '\n' :: TRUNC_MARKER, true) := by
  constructor
  · intro output mc mll htr
    by_cases hout : output = []
    · rw [hout] at htr; simp [truncate_output] at htr
    · have hb := truncLoop_flatten_length mc (decide (0 < output.count '\n')) mll
        (splitlines output) 0 false (Nat.zero_le mc)
      have hlen : ((truncLoop mc (decide (0 < output.count '\n')) mll
          (splitlines output) 0 false).1.flatten).length ≤ mc := by omega
      by_cases hflag : (truncLoop mc (decide (0 < output.count '\n')) mll
          (splitlines output) 0 false).2 = true
      · obtain ⟨core, hc1, hc2⟩ := marker_attach_decomp
          ((truncLoop mc (decide (0 < output.count '\n')) mll
            (splitlines output) 0 false).1.flatten) mc hlen
        refine ⟨core, ?_, hc2⟩
        rw [← hc1]
        simp only [truncate_output, if_neg hout, hflag, if_true]
      · rw [Bool.not_eq_true] at hflag
        simp only [truncate_output, if_neg hout, hflag] at htr
        simp at htr
  · decide

/-- C9's failing input: on `"abc"` with `max_chars = 2` the code silently
drops the whole line (fewer than 4 characters of budget remain) yet
reports `truncated = false`, so the claimed identity fails; the spec's
step 3 says this drop must mark `truncated`. -/
theorem c9_untruncated_not_identity :
    truncate_output (str ("abc")) 2 none = ([], false) ∧ ([] : PyStr) ≠ str ("abc") := by
  decide

/-- C7's counterexample: for the single line `"aaaaaaaaaa\r"` with
`max_line_chars = 8`, the code emits `"aaaaa..."` — the original `"\r"`
terminator is dropped, not kept, so the claimed emitted line
`"aaaaa...\r"` differs from the actual one. -/
theorem c7_counterexample_terminator_dropped :
    truncate_output (str ("aaaaaaaaaa\r")) 100 (some 8) =
      (str ("aaaaa...") ++ '\n' :: TRUNC_MARKER, true) ∧
    lineTruncStep false (some 8) (str ("aaaaaaaaaa\r")) = (str ("aaaaa..."), true) ∧
    str ("aaaaa...") ≠ specClaimLineTrunc 8 (str ("aaaaaaaaaa\r")) := by
  decide

/-- A nonempty line is never emitted as empty by the per-line stage. -/
theorem lineTruncStep_fst_ne_nil (hasLF : Bool) (mll : Option Nat) (line : PyStr)
    (h : line ≠ []) : (lineTruncStep hasLF mll line).1 ≠ [] := by
  have hdots : str ("...") ≠ [] := by decide
  unfold lineTruncStep
  cases mll with
  | none => simpa using h
  | some m =>
    by_cases hm : m < line.length
    · simp only [if_pos hm]
      split
      · simp
      · exact fun hc => hdots (List.append_eq_nil.mp hc).2
    · simp only [if_neg hm]; simpa using h

/-- C7 amended: when `max_line_chars ≥ 3` is set and a line (terminator
included) exceeds it, the emitted line is the line's first
`max_line_chars - 3` characters plus a 3-character ellipsis, and the
original terminator is NOT kept: instead a `"\n"` is appended exactly when
the whole output contains a `"\n"`; `truncated` is marked. Moreover, when
the total budget is ample, the loop of `truncate_output` emits exactly
these per-line results. -/
theorem c7_amended_per_line :
    (∀ (hasLF : Bool) (m : Nat) (line : PyStr), 3 ≤ m → m < line.length →
      lineTruncStep hasLF (some m) line =
        (line.take (m - 3) ++ str ("...") ++ (if hasLF then ['\n'] else []), true)) ∧
    (∀ (mc : Nat) (hasLF : Bool) (mll : Option Nat) (lines : List PyStr) (total : Nat)
        (trunc : Bool),
      (∀ l ∈ lines, l ≠ []) →
      total + ((lines.map (fun l => (lineTruncStep hasLF mll l).1)).flatten).length ≤ mc →
      truncLoop mc hasLF mll lines total trunc =
        (lines.map (fun l => (lineTruncStep hasLF mll l).1),
         trunc || lines.any (fun l => (lineTruncStep hasLF mll l).2))) := by
  constructor
  · intro hasLF m line h3 hlen
    have htake : pyTake line ((m : Int) - 3) = line.take (m - 3) := by
      unfold pyTake
      rw [if_neg (by omega)]
      congr 1
      omega
    have hend : endsWithLF (line.take (m - 3) ++ str ("...")) = false := by
      unfold endsWithLF
      rw [List.getLast?_append_of_ne_nil _ (by decide)]
      decide
    unfold lineTruncStep
    simp only [if_pos hlen, htake, hend]
    cases hasLF <;> simp [List.append_assoc]
  · intro mc hasLF mll lines
    induction lines with
    | nil => intro total trunc _ _; simp [truncLoop]
    | cons line rest ih =>
      intro total trunc hne hbud
      have hlne : (lineTruncStep hasLF mll line).1 ≠ [] :=
        lineTruncStep_fst_ne_nil _ _ _ (hne line (by simp))
      have hpos : 0 < (lineTruncStep hasLF mll line).1.length := List.length_pos.mpr hlne
      simp only [List.map_cons, List.flatten_cons, List.length_append] at hbud
      have h1 : ¬ (mc ≤ total) := by omega
      have h2 : ¬ (mc < total + (lineTruncStep hasLF mll line).1.length) := by omega
      simp only [truncLoop, if_neg h1, if_neg h2]
      have hih := ih (total + (lineTruncStep hasLF mll line).1.length)
        (trunc || (lineTruncStep hasLF mll line).2)
        (fun l hl => hne l (by simp [hl])) (by omega)
      rw [hih]
      simp [Bool.or_assoc]

/-- Witness for C7's amended statement at concrete inputs. -/
theorem c7_amended_per_line_witness :
    lineTruncStep true (some 8) (str ("aaaaaaaaaa\n")) =
      ((str ("aaaaaaaaaa\n")).take (8 - 3) ++ str ("...") ++ (if true then ['\n'] else []), true) ∧
    truncLoop 100 false none [str ("ab")] 0 false =
      ([str ("ab")].map (fun l => (lineTruncStep false none l).1),
       false || [str ("ab")].any (fun l => (lineTruncStep false none l).2)) :=
  ⟨c7_amended_per_line.1 true 8 (str ("aaaaaaaaaa\n")) (by decide) (by decide),
   c7_amended_per_line.2 100 false none [str ("ab")] 0 false (by decide) (by decide)⟩

/-- Witness for C6 at a concrete truncated input. -/
theorem c6_truncated_bound_and_marker_witness :
    (truncate_output (str ("hello world, this is long")) 10 none).2 = true ∧
    ∃ core : PyStr, (truncate_output (str ("hello world, this is long")) 10 none).1 =
      core ++ '\n' :: TRUNC_MARKER ∧ core.length ≤ 10 :=
  ⟨by decide,
   c6_truncated_bound_and_marker.1 (str ("hello world, this is long")) 10 none (by decide)⟩

/-- C3's counterexample: the input string `"~/outside.txt"` is not itself
absolute, and (with home directory `/home/u`) it canonicalizes to
`/home/u/outside.txt`, outside the work root `/home/u/project`; yet
`_resolve_path` succeeds with `is_outside_root = true` and no error —
where the claim, which conditions on the original input string's
absoluteness, requires a `PathNotAbsolute` failure. The code instead
tests absoluteness of the home-expanded input
(`Path(path_str).expanduser().is_absolute()`). -/
theorem c3_counterexample_tilde_input :
    (parsePath (str ("~/outside.txt"))).absolute = false ∧
    isRelTo
      (canonicalOf lexResolve (fun _ => [str ("home"), str ("u")]) (str ("~/outside.txt"))
        ⟨true, [str ("home"), str ("u"), str ("project")]⟩)
      ⟨true, [str ("home"), str ("u"), str ("project")]⟩ = false ∧
    resolve_path lexResolve (fun _ => [str ("home"), str ("u")]) (str ("read a file"))
      (str ("~/outside.txt")) ⟨true, [str ("home"), str ("u"), str ("project")]⟩ =
      (⟨true, [str ("home"), str ("u"), str ("outside.txt")]⟩, none, true) := by
  decide

/-- C3 amended: `_resolve_path` succeeds with `is_outside_root = false`
whenever the canonical path stays under the work root, with no
absoluteness requirement; succeeds with `is_outside_root = true` and no
error when the canonical path is outside and the input *after home
expansion* is absolute; and fails with the `PathNotAbsolute` message when
the canonical path is outside and the input after home expansion is still
relative. For inputs whose first path component does not begin with
`"~"`, home expansion is the identity, so the condition then coincides
with the original string's absoluteness. Scenario with work root
`/home/u/project`:
`"../etc/passwd"` fails with `PathNotAbsolute`, `"/etc/passwd"` resolves
outside-root with no error, and `"notes.txt"` resolves inside-root. -/
theorem c3_resolve_path_cases :
    (∀ (resolveFn : PyPath → PyPath) (home : PyStr → List PyStr) (verb path_str : PyStr)
        (work_dir : PyPath),
      isRelTo (canonicalOf resolveFn home path_str work_dir) work_dir = true →
      resolve_path resolveFn home verb path_str work_dir =
        (canonicalOf resolveFn home path_str work_dir, none, false)) ∧
    (∀ (resolveFn : PyPath → PyPath) (home : PyStr → List PyStr) (verb path_str : PyStr)
        (work_dir : PyPath),
      isRelTo (canonicalOf resolveFn home path_str work_dir) work_dir = false →
      (expanduser home (parsePath path_str)).absolute = true →
      resolve_path resolveFn home verb path_str work_dir =
        (canonicalOf resolveFn home path_str work_dir, none, true)) ∧
    (∀ (resolveFn : PyPath → PyPath) (home : PyStr → List PyStr) (verb path_str : PyStr)
        (work_dir : PyPath),
      isRelTo (canonicalOf resolveFn home path_str work_dir) work_dir = false →
      (expanduser home (parsePath path_str)).absolute = false →
      resolve_path resolveFn home verb path_str work_dir =
        (canonicalOf resolveFn home path_str work_dir,
         some (notAbsoluteMsg path_str verb), true)) ∧
    resolve_path lexResolve (fun _ => []) (str ("read a file")) (str ("../etc/passwd"))
      ⟨true, [str ("home"), str ("u"), str ("project")]⟩ =
      (⟨true, [str ("home"), str ("u"), str ("etc"), str ("passwd")]⟩,
       some (notAbsoluteMsg (str ("../etc/passwd")) (str ("read a file"))), true) ∧
    resolve_path lexResolve (fun _ => []) (str ("read a file")) (str ("/etc/passwd"))
      ⟨true, [str ("home"), str ("u"), str ("project")]⟩ =
      (⟨true, [str ("etc"), str ("passwd")]⟩, none, true) ∧
    resolve_path lexResolve (fun _ => []) (str ("read a file")) (str ("notes.txt"))
      ⟨true, [str ("home"), str ("u"), str ("project")]⟩ =
      (⟨true, [str ("home"), str ("u"), str ("project"), str ("notes.txt")]⟩, none, false) := by
  refine ⟨?_, ?_, ?_, by decide, by decide, by decide⟩
  · intro rf home verb ps wd hrel
    unfold canonicalOf at hrel
    simp only [resolve_path, hrel, if_true, canonicalOf]
  · intro rf home verb ps wd hrel habs
    simp only [canonicalOf, habs, if_true] at hrel
    simp only [resolve_path, canonicalOf, habs, if_true, hrel, Bool.false_eq_true, if_false]
  · intro rf home verb ps wd hrel habs
    simp only [canonicalOf, habs, Bool.false_eq_true, if_false] at hrel
    simp only [resolve_path, canonicalOf, habs, Bool.false_eq_true, if_false, hrel]

/-- Witness for C3's inside-root case at a concrete input. -/
theorem c3_resolve_path_cases_witness :
    resolve_path lexResolve (fun _ => []) (str ("write a file")) (str ("notes.txt"))
      ⟨true, [str ("home"), str ("u"), str ("project")]⟩ =
      (canonicalOf lexResolve (fun _ => []) (str ("notes.txt"))
        ⟨true, [str ("home"), str ("u"), str ("project")]⟩, none, false) :=
  c3_resolve_path_cases.1 lexResolve (fun _ => []) (str ("write a file")) (str ("notes.txt"))
    ⟨true, [str ("home"), str ("u"), str ("project")]⟩ (by decide)

/-- C10: when applying all requested edits to an existing file leaves its
content unchanged, `str_replace_file` returns the "No replacements" error
with an empty event trace — no approval request, no write — and the
filesystem is returned unchanged. -/
theorem c10_noop_edits_error_before_approval :
    ∀ (ctx : KimiToolContext) (home : PyStr → List PyStr) (resolveFn : PyPath → PyPath)
      (params : StrReplaceParams) (fs : FS) (p : PyPath) (is_outside : Bool),
      params.path ≠ [] →
      resolve_path resolveFn home (str ("edit a file")) params.path ctx.work_dir =
        (p, none, is_outside) →
      fs.existsFile p.components = true →
      applyEdits ((fs.readFile? p.components).getD []) params.edits =
        (fs.readFile? p.components).getD [] →
      str_replace_file ctx home resolveFn params fs =
        (format_error (str ("No replacements were made. The old string was not found in the file.")),
         fs, []) := by
  intro ctx home rf params fs p iso hne hres hfile happ
  have hany : fs.existsAny p.components = true := by
    simp [FS.existsAny, hfile]
  unfold str_replace_file
  rw [if_neg hne, hres]
  simp only [hany, hfile, happ, Bool.not_true, Bool.false_eq_true, if_false, if_true]

/-- Witness for C10 at a concrete filesystem and edit list. -/
theorem c10_noop_edits_error_before_approval_witness :
    str_replace_file ⟨⟨true, [str ("w")]⟩, false, [], none⟩ (fun _ => []) lexResolve
      ⟨str ("a.txt"), [⟨str ("x"), str ("y"), false⟩]⟩
      ⟨[[str ("w")]], [([str ("w"), str ("a.txt")], str ("abc"))]⟩ =
      (format_error (str ("No replacements were made. The old string was not found in the file.")),
       ⟨[[str ("w")]], [([str ("w"), str ("a.txt")], str ("abc"))]⟩, []) :=
  c10_noop_edits_error_before_approval ⟨⟨true, [str ("w")]⟩, false, [], none⟩ (fun _ => []) lexResolve
    ⟨str ("a.txt"), [⟨str ("x"), str ("y"), false⟩]⟩
    ⟨[[str ("w")]], [([str ("w"), str ("a.txt")], str ("abc"))]⟩
    ⟨true, [str ("w"), str ("a.txt")]⟩ false
    (by decide) (by decide) (by decide) (by decide)

/-- C5: when the subprocess run exceeds its timeout, the handler kills the
child, waits for its exit, and only then returns the timeout error — the
trace ends `spawn, kill, wait`, and no child of the call is left alive
when the error surfaces. -/
theorem c5_timeout_kill_wait_before_error :
    ∀ (ctx : KimiToolContext) (si : ShellInfo) (params : ShellParams)
      (run : List PyStr → ProcOutcome),
      params.command ≠ [] →
      request_approval ctx (str ("shell")) (str ("run command"))
        (str ("Run command `") ++ params.command ++ str ("`")) = true →
      (run (si.get_args params.command)).timedOut = true →
      shell_handler ctx si (Except.ok params) run =
        (format_error (str ("Command killed by timeout (") ++ natToStr params.timeout ++ str ("s)")),
         [Event.approvalDecision true, Event.procSpawn (si.get_args params.command),
          Event.procKill, Event.procWait]) ∧
      procsAlive (shell_handler ctx si (Except.ok params) run).2 = 0 := by
  intro ctx si params run hcmd happr htime
  have heq : shell_handler ctx si (Except.ok params) run =
      (format_error (str ("Command killed by timeout (") ++ natToStr params.timeout ++ str ("s)")),
       [Event.approvalDecision true, Event.procSpawn (si.get_args params.command),
        Event.procKill, Event.procWait]) := by
    unfold shell_handler
    simp only [if_neg hcmd, happr, htime, Bool.not_true, Bool.false_eq_true, if_false, if_true]
  refine ⟨heq, ?_⟩
  rw [heq]
  rfl

/-- Witness for C5: a timed-out run of `sleep 10` under a bypass-all
context. -/
theorem c5_timeout_kill_wait_before_error_witness :
    shell_handler ⟨⟨true, []⟩, true, [], none⟩ ⟨ShellName.bash, str ("/bin/bash")⟩
      (Except.ok ⟨str ("sleep 10"), 1⟩) (fun _ => ⟨true, [], 0⟩) =
      (format_error (str ("Command killed by timeout (") ++ natToStr 1 ++ str ("s)")),
       [Event.approvalDecision true,
        Event.procSpawn ((ShellInfo.mk ShellName.bash (str ("/bin/bash"))).get_args (str ("sleep 10"))),
        Event.procKill, Event.procWait]) ∧
    procsAlive (shell_handler ⟨⟨true, []⟩, true, [], none⟩ ⟨ShellName.bash, str ("/bin/bash")⟩
      (Except.ok ⟨str ("sleep 10"), 1⟩) (fun _ => ⟨true, [], 0⟩)).2 = 0 :=
  c5_timeout_kill_wait_before_error ⟨⟨true, []⟩, true, [], none⟩
    ⟨ShellName.bash, str ("/bin/bash")⟩ ⟨str ("sleep 10"), 1⟩ (fun _ => ⟨true, [], 0⟩)
    (by decide) rfl rfl

/-- Every run of `write_file` has one of three effect shapes: an early
error with no events, a rejection with only the (negative) decision event,
or an approved decision followed by the single write. -/
theorem write_file_trace_cases (ctx : KimiToolContext) (home : PyStr → List PyStr)
    (resolveFn : PyPath → PyPath) (params : WriteFileParams) (fs : FS) :
    ((write_file ctx home resolveFn params fs).2.2 = [] ∧
      (write_file ctx home resolveFn params fs).2.1 = fs) ∨
    ((write_file ctx home resolveFn params fs).2.2 = [Event.approvalDecision false] ∧
      (write_file ctx home resolveFn params fs).1 = format_rejection ∧
      (write_file ctx home resolveFn params fs).2.1 = fs) ∨
    (∃ p c, (write_file ctx home resolveFn params fs).2.2 =
      [Event.approvalDecision true, Event.fsWrite p c]) := by
  unfold write_file
  repeat' (first | split | dsimp only)
  all_goals first
    | exact Or.inl ⟨rfl, rfl⟩
    | exact Or.inr (Or.inl ⟨rfl, rfl, rfl⟩)
    | exact Or.inr (Or.inr ⟨_, _, rfl⟩)

/-- Every run of `str_replace_file` has one of three effect shapes. -/
theorem str_replace_file_trace_cases (ctx : KimiToolContext) (home : PyStr → List PyStr)
    (resolveFn : PyPath → PyPath) (params : StrReplaceParams) (fs : FS) :
    ((str_replace_file ctx home resolveFn params fs).2.2 = [] ∧
      (str_replace_file ctx home resolveFn params fs).2.1 = fs) ∨
    ((str_replace_file ctx home resolveFn params fs).2.2 = [Event.approvalDecision false] ∧
      (str_replace_file ctx home resolveFn params fs).1 = format_rejection ∧
      (str_replace_file ctx home resolveFn params fs).2.1 = fs) ∨
    (∃ p c, (str_replace_file ctx home resolveFn params fs).2.2 =
      [Event.approvalDecision true, Event.fsWrite p c]) := by
  unfold str_replace_file
  repeat' (first | split | dsimp only)
  all_goals first
    | exact Or.inl ⟨rfl, rfl⟩
    | exact Or.inr (Or.inl ⟨rfl, rfl, rfl⟩)
    | exact Or.inr (Or.inr ⟨_, _, rfl⟩)

/-- Every run of the shell handler has one of four effect shapes. -/
theorem shell_handler_trace_cases (ctx : KimiToolContext) (si : ShellInfo)
    (args : Except PyStr ShellParams) (run : List PyStr → ProcOutcome) :
    ((shell_handler ctx si args run).2 = []) ∨
    ((shell_handler ctx si args run).2 = [Event.approvalDecision false] ∧
      (shell_handler ctx si args run).1 = format_rejection) ∨
    (∃ a, (shell_handler ctx si args run).2 =
      [Event.approvalDecision true, Event.procSpawn a, Event.procKill, Event.procWait]) ∨
    (∃ a, (shell_handler ctx si args run).2 =
      [Event.approvalDecision true, Event.procSpawn a, Event.procWait]) := by
  unfold shell_handler
  repeat' (first | split | dsimp only)
  all_goals first
    | exact Or.inl rfl
    | exact Or.inr (Or.inl ⟨rfl, rfl⟩)
    | exact Or.inr (Or.inr (Or.inl ⟨_, rfl⟩))
    | exact Or.inr (Or.inr (Or.inr ⟨_, rfl⟩))

/-- C1: in every `write_file`, `str_replace_file`, and shell call, no
side-effecting operation (file write or process spawn) occurs before an
approved decision; and whenever the decision is `false`, the call returns
exactly the rejection signal, the filesystem is unchanged, and the trace
contains no side effect at all. -/
theorem c1_no_effect_before_approval :
    (∀ (ctx : KimiToolContext) (home : PyStr → List PyStr) (resolveFn : PyPath → PyPath)
        (params : WriteFileParams) (fs : FS),
      effectsOnlyAfterApproval (write_file ctx home resolveFn params fs).2.2 = true) ∧
    (∀ (ctx : KimiToolContext) (home : PyStr → List PyStr) (resolveFn : PyPath → PyPath)
        (params : WriteFileParams) (fs : FS),
      Event.approvalDecision false ∈ (write_file ctx home resolveFn params fs).2.2 →
      (write_file ctx home resolveFn params fs).1 = format_rejection ∧
      (write_file ctx home resolveFn params fs).2.1 = fs ∧
      (write_file ctx home resolveFn params fs).2.2.filter isSideEffect = []) ∧
    (∀ (ctx : KimiToolContext) (home : PyStr → List PyStr) (resolveFn : PyPath → PyPath)
        (params : StrReplaceParams) (fs : FS),
      effectsOnlyAfterApproval (str_replace_file ctx home resolveFn params fs).2.2 = true) ∧
    (∀ (ctx : KimiToolContext) (home : PyStr → List PyStr) (resolveFn : PyPath → PyPath)
        (params : StrReplaceParams) (fs : FS),
      Event.approvalDecision false ∈ (str_replace_file ctx home resolveFn params fs).2.2 →
      (str_replace_file ctx home resolveFn params fs).1 = format_rejection ∧
      (str_replace_file ctx home resolveFn params fs).2.1 = fs ∧
      (str_replace_file ctx home resolveFn params fs).2.2.filter isSideEffect = []) ∧
    (∀ (ctx : KimiToolContext) (si : ShellInfo) (args : Except PyStr ShellParams)
        (run : List PyStr → ProcOutcome),
      effectsOnlyAfterApproval (shell_handler ctx si args run).2 = true) ∧
    (∀ (ctx : KimiToolContext) (si : ShellInfo) (args : Except PyStr ShellParams)
        (run : List PyStr → ProcOutcome),
      Event.approvalDecision false ∈ (shell_handler ctx si args run).2 →
      (shell_handler ctx si args run).1 = format_rejection ∧
      (shell_handler ctx si args run).2.filter isSideEffect = []) := by
  refine ⟨?_, ?_, ?_, ?_, ?_, ?_⟩
  · intro ctx home rf params fs
    rcases write_file_trace_cases ctx home rf params fs with ⟨h, _⟩ | ⟨h, _, _⟩ | ⟨p, c, h⟩ <;>
      rw [h] <;> rfl
  · intro ctx home rf params fs hmem
    rcases write_file_trace_cases ctx home rf params fs with ⟨h, hfs⟩ | ⟨h, hout, hfs⟩ | ⟨p, c, h⟩
    · rw [h] at hmem; simp at hmem
    · exact ⟨hout, hfs, by rw [h]; rfl⟩
    · rw [h] at hmem; simp at hmem
  · intro ctx home rf params fs
    rcases str_replace_file_trace_cases ctx home rf params fs with ⟨h, _⟩ | ⟨h, _, _⟩ | ⟨p, c, h⟩ <;>
      rw [h] <;> rfl
  · intro ctx home rf params fs hmem
    rcases str_replace_file_trace_cases ctx home rf params fs with ⟨h, hfs⟩ | ⟨h, hout, hfs⟩ | ⟨p, c, h⟩
    · rw [h] at hmem; simp at hmem
    · exact ⟨hout, hfs, by rw [h]; rfl⟩
    · rw [h] at hmem; simp at hmem
  · intro ctx si args run
    rcases shell_handler_trace_cases ctx si args run with h | ⟨h, _⟩ | ⟨a, h⟩ | ⟨a, h⟩ <;>
      rw [h] <;> rfl
  · intro ctx si args run hmem
    rcases shell_handler_trace_cases ctx si args run with h | ⟨h, hout⟩ | ⟨a, h⟩ | ⟨a, h⟩
    · rw [h] at hmem; simp at hmem
    · exact ⟨hout, by rw [h]; rfl⟩
    · rw [h] at hmem; simp at hmem
    · rw [h] at hmem; simp at hmem

/-- Witness for C1: a concrete rejected `write_file` call (no bypass, no
pre-approval, no callback) returns the rejection signal, leaves the
filesystem unchanged, and performs no side effect. -/
theorem c1_no_effect_before_approval_witness :
    (write_file ⟨⟨true, [str ("w")]⟩, false, [], none⟩ (fun _ => []) lexResolve
      ⟨str ("a.txt"), str ("hi"), WriteMode.overwrite⟩ ⟨[[str ("w")]], []⟩).1 =
        format_rejection ∧
    (write_file ⟨⟨true, [str ("w")]⟩, false, [], none⟩ (fun _ => []) lexResolve
      ⟨str ("a.txt"), str ("hi"), WriteMode.overwrite⟩ ⟨[[str ("w")]], []⟩).2.1 =
        ⟨[[str ("w")]], []⟩ ∧
    (write_file ⟨⟨true, [str ("w")]⟩, false, [], none⟩ (fun _ => []) lexResolve
      ⟨str ("a.txt"), str ("hi"), WriteMode.overwrite⟩ ⟨[[str ("w")]], []⟩).2.2.filter
        isSideEffect = [] :=
  c1_no_effect_before_approval.2.1 ⟨⟨true, [str ("w")]⟩, false, [], none⟩ (fun _ => []) lexResolve
    ⟨str ("a.txt"), str ("hi"), WriteMode.overwrite⟩ ⟨[[str ("w")]], []⟩ (by decide)

/-- `mkdirp` never changes the files of the filesystem. -/
theorem FS.files_mkdirp (fs : FS) (p : List PyStr) : (fs.mkdirp p).files = fs.files := by
  unfold FS.mkdirp
  split <;> rfl

/-- Reading back a just-written file yields the written content. -/
theorem FS.readFile?_writeFile_self (fs : FS) (p : List PyStr) (c : PyStr) :
    (fs.writeFile p c).readFile? p = some c := by
  simp [FS.readFile?, FS.writeFile]

/-- C4's counterexample: an extraction failure after 3 streamed characters
leaves the partial file `"BIN"` at the final install path even though the
call fails — the extracted binary is streamed directly to the install
path, not moved there atomically from scratch. -/
theorem c4_counterexample_partial_file :
    (download_and_install_rg true (some (str ("x86_64-unknown-linux-musl"))) [str ("home")]
      (str ("rg")) (DlEnv.archive [(str ("rg"), some (str ("BINARY")))] (some 3))
      ⟨[], []⟩).1 = Except.error (str ("extraction interrupted")) ∧
    (download_and_install_rg true (some (str ("x86_64-unknown-linux-musl"))) [str ("home")]
      (str ("rg")) (DlEnv.archive [(str ("rg"), some (str ("BINARY")))] (some 3))
      ⟨[], []⟩).2.readFile? (destPath [str ("home")] (str ("rg"))) = some (str ("BIN")) := by
  decide

/-- C4 amended: a failed download response or a missing archive member
leaves no file at the install path (the archive itself only ever goes to
scratch); but the extracted member is streamed directly to the final
install path, so an interrupted extraction leaves a partial file there,
and even on success the file is written in place rather than moved
atomically. -/
theorem c4_amended_no_file_unless_extraction :
    (∀ (target : Option PyStr) (home : List PyStr) (bin_name : PyStr) (fs : FS),
      (download_and_install_rg true target home bin_name DlEnv.httpError fs).2.files =
        fs.files ∧
      ∃ e, (download_and_install_rg true target home bin_name DlEnv.httpError fs).1 =
        Except.error e) ∧
    (∀ (target : Option PyStr) (home : List PyStr) (bin_name : PyStr)
        (members : List (PyStr × Option PyStr)) (failAfter : Option Nat) (fs : FS),
      members.find? (fun m => baseName m.1 == bin_name) = none →
      (download_and_install_rg true target home bin_name
        (DlEnv.archive members failAfter) fs).2.files = fs.files ∧
      ∃ e, (download_and_install_rg true target home bin_name
        (DlEnv.archive members failAfter) fs).1 = Except.error e) ∧
    (∀ (t : PyStr) (home : List PyStr) (bin_name nm content : PyStr)
        (members : List (PyStr × Option PyStr)) (k : Nat) (fs : FS),
      members.find? (fun m => baseName m.1 == bin_name) = some (nm, some content) →
      (download_and_install_rg true (some t) home bin_name
        (DlEnv.archive members (some k)) fs).1 = Except.error (str ("extraction interrupted")) ∧
      (download_and_install_rg true (some t) home bin_name
        (DlEnv.archive members (some k)) fs).2.readFile? (destPath home bin_name) =
        some (content.take k)) ∧
    (∀ (t : PyStr) (home : List PyStr) (bin_name nm content : PyStr)
        (members : List (PyStr × Option PyStr)) (fs : FS),
      members.find? (fun m => baseName m.1 == bin_name) = some (nm, some content) →
      (download_and_install_rg true (some t) home bin_name
        (DlEnv.archive members none) fs).1 = Except.ok (destPath home bin_name) ∧
      (download_and_install_rg true (some t) home bin_name
        (DlEnv.archive members none) fs).2.readFile? (destPath home bin_name) =
        some content) := by
  refine ⟨?_, ?_, ?_, ?_⟩
  · intro target home bin fs
    cases target with
    | none => exact ⟨rfl, _, rfl⟩
    | some t => exact ⟨FS.files_mkdirp fs (shareBinDir home), _, rfl⟩
  · intro target home bin members failAfter fs hfind
    cases target with
    | none => exact ⟨rfl, _, rfl⟩
    | some t =>
      unfold download_and_install_rg
      simp only [hfind, Bool.not_true, Bool.false_eq_true, if_false]
      exact ⟨FS.files_mkdirp fs (shareBinDir home), _, rfl⟩
  · intro t home bin nm content members k fs hfind
    unfold download_and_install_rg
    simp only [hfind, Bool.not_true, Bool.false_eq_true, if_false]
    exact ⟨trivial, FS.readFile?_writeFile_self _ _ _⟩
  · intro t home bin nm content members fs hfind
    unfold download_and_install_rg
    simp only [hfind, Bool.not_true, Bool.false_eq_true, if_false]
    exact ⟨trivial, FS.readFile?_writeFile_self _ _ _⟩

/-- Witness for C4's amended statement: an extraction interrupted after
one character leaves exactly that one character at the install path. -/
theorem c4_amended_no_file_unless_extraction_witness :
    (download_and_install_rg true (some (str ("t"))) [str ("h")] (str ("rg"))
      (DlEnv.archive [(str ("rg"), some (str ("XYZ")))] (some 1)) ⟨[], []⟩).1 =
      Except.error (str ("extraction interrupted")) ∧
    (download_and_install_rg true (some (str ("t"))) [str ("h")] (str ("rg"))
      (DlEnv.archive [(str ("rg"), some (str ("XYZ")))] (some 1)) ⟨[], []⟩).2.readFile?
      (destPath [str ("h")] (str ("rg"))) = some ((str ("XYZ")).take 1) :=
  c4_amended_no_file_unless_extraction.2.2.1 (str ("t")) [str ("h")] (str ("rg")) (str ("rg"))
    (str ("XYZ")) [(str ("rg"), some (str ("XYZ")))] 1 ⟨[], []⟩ (by decide)

/-- The invariant holds in the cold-cache initial state. -/
theorem ensureInv_init : EnsureInv ensureInit := by
  unfold EnsureInv ensureInit
  decide

set_option maxHeartbeats 4000000 in
/-- Every step of either task preserves the invariant. -/
theorem ensureInv_step (s : EnsureState) (i : Bool) (h : EnsureInv s) :
    EnsureInv (ensureStep s i) := by
  obtain ⟨p, o, c0, c1, d⟩ := s
  have hcases : o = none ∨ o = some false ∨ o = some true := by
    rcases o with _ | b
    · exact Or.inl rfl
    · cases b
      · exact Or.inr (Or.inl rfl)
      · exact Or.inr (Or.inr rfl)
  rcases hcases with rfl | rfl | rfl <;>
    cases i <;> cases c0 <;> cases c1 <;> cases p <;>
    simp_all [ensureStep, pcOf, setPC, EnsureInv] <;> omega

/-- The invariant holds after any schedule from an invariant state. -/
theorem ensureInv_run (sched : List Bool) (s : EnsureState) (h : EnsureInv s) :
    EnsureInv (ensureRun s sched) := by
  induction sched generalizing s with
  | nil => exact h
  | cons i rest ih => exact ih (ensureStep s i) (ensureInv_step s i h)

/-- C8: for every interleaving of two `ensure("rg")` calls from a cold
cache after which both tasks finished, exactly one download was performed;
and any task about to download holds the per-binary lock (so a racing
caller that re-checks inside the lock and sees the binary present never
downloads). -/
theorem c8_exactly_one_download :
    (∀ sched : List Bool,
      (ensureRun ensureInit sched).pc0 = PC.done →
      (ensureRun ensureInit sched).pc1 = PC.done →
      (ensureRun ensureInit sched).downloads = 1) ∧
    (∀ (sched : List Bool) (i : Bool),
      pcOf (ensureRun ensureInit sched) i = PC.downloading →
      (ensureRun ensureInit sched).owner = some i) := by
  constructor
  · intro sched h0 h1
    obtain ⟨i1, _, _, _, _, _, i70, _⟩ := ensureInv_run sched ensureInit ensureInv_init
    have := i70 h0
    omega
  · intro sched i hpc
    obtain ⟨_, _, i3, i4, _, _, _, _⟩ := ensureInv_run sched ensureInit ensureInv_init
    cases i with
    | false => exact i3 (Or.inr hpc)
    | true => exact i4 (Or.inr hpc)

/-- Witness for C8: a concrete schedule in which task 0 downloads and task
1 then observes the binary on its fast path; both finish with exactly one
download. -/
theorem c8_exactly_one_download_witness :
    (ensureRun ensureInit [false, false, false, false, true]).pc0 = PC.done ∧
    (ensureRun ensureInit [false, false, false, false, true]).pc1 = PC.done ∧
    (ensureRun ensureInit [false, false, false, false, true]).downloads = 1 :=
  ⟨by decide, by decide,
   c8_exactly_one_download.1 [false, false, false, false, true] (by decide) (by decide)⟩

end OAT
